import Mathlib

/-!
Shallow embedding of the "Adjust Control Signals" cell of
`Copy_of_NEWT_Timbre_Transfer.ipynb` (the control-signal preparation
pipeline), with sequences modelled as `List ℚ` and the numpy / torch
elementwise operations modelled index-wise.

Source lines (cell body):
  f0_filtered = f0 * (confidence > pitch_conf_filter)
  loudness_filtered = loudness * (confidence > loudness_conf_filter)
  f0_shifted = f0_filtered * (2 ** octave_shift)
  loudness_floored = loudness_filtered * (loudness_filtered > loudness_floor) - loudness_floor
  loudness_scaled = loudness_floored * loudness_scale
  loud_norm = (loudness_scaled - data_mean[1]) / data_std[1]
  f0_t = f0_shifted
  loud_norm_t = loud_norm
  if pitch_smoothing != 0:
    f0_t = conv1d(f0_t, ones(2r+1)/(2r+1), padding=r)      -- r = pitch_smoothing
  f0_norm_t = (f0_t - data_mean[0]) / data_std[0]
  if loudness_smoothing != 0:
    loud_norm_t = conv1d(loud_norm_t, ones(2r+1)/(2r+1), padding=r)
  f0_norm_t = (f0_t - data_mean[0]) / data_std[0]          -- recomputed, identical
  control = torch.stack((f0_norm_t, loud_norm_t), dim=0)
and later, the synthesis cell:
  out = model(f0_t.expand(1, 1, -1), control.unsqueeze(0))
-/

namespace TimbreTransfer

/-- `f0_filtered = f0 * (confidence > pitch_conf_filter)`: numpy elementwise
product of `f0` with the boolean mask `confidence > threshold` (True = 1,
False = 0). -/
def f0_filtered (f0 confidence : List ℚ) (pitch_conf_filter : ℚ) : List ℚ :=
  List.zipWith (fun x c => x * (if pitch_conf_filter < c then 1 else 0)) f0 confidence

/-- `loudness_filtered = loudness * (confidence > loudness_conf_filter)`. -/
def loudness_filtered (loudness confidence : List ℚ) (loudness_conf_filter : ℚ) : List ℚ :=
  List.zipWith (fun x c => x * (if loudness_conf_filter < c then 1 else 0)) loudness confidence

/-- `f0_shifted = f0_filtered * (2 ** octave_shift)`; `octave_shift` is an
integer slider in [-4, 4], so `2 ** octave_shift` is an exact rational. -/
def f0_shifted (f0f : List ℚ) (octave_shift : ℤ) : List ℚ :=
  f0f.map (fun x => x * (2 : ℚ) ^ octave_shift)

/-- `loudness_floored = loudness_filtered * (loudness_filtered > loudness_floor)
- loudness_floor`: elementwise, the value is kept (mask 1) or zeroed (mask 0)
and then the floor is subtracted from every frame. -/
def loudness_floored (lf : List ℚ) (loudness_floor : ℚ) : List ℚ :=
  lf.map (fun x => x * (if loudness_floor < x then 1 else 0) - loudness_floor)

/-- `loudness_scaled = loudness_floored * loudness_scale`. -/
def loudness_scaled (lfl : List ℚ) (loudness_scale : ℚ) : List ℚ :=
  lfl.map (fun x => x * loudness_scale)

/-- Elementwise normalization `(value - mean) / std`, as used for both
`loud_norm` and `f0_norm_t`. -/
def normalizeSeq (xs : List ℚ) (mean std : ℚ) : List ℚ :=
  xs.map (fun x => (x - mean) / std)

/-- Scalar normalization `(x - mean) / std`. -/
def normalize (x mean std : ℚ) : ℚ := (x - mean) / std

/-- Scalar denormalization, the inverse transform `y * std + mean` of
`normalize` (the spec's round-trip direction). -/
def denormalize (y mean std : ℚ) : ℚ := y * std + mean

/-- The constant averaging kernel `torch.ones(1, 1, 2r+1) / (2r+1)`. -/
def convKernel (r : ℕ) : List ℚ :=
  List.replicate (2 * r + 1) ((1 : ℚ) / ((2 * r + 1 : ℕ) : ℚ))

/-- `torch.nn.functional.conv1d(x, w, padding=pad)` on a single channel:
zero-pad the input on both sides, then slide the (un-flipped) kernel,
taking the dot product at each position.  The output length is
`(pad + n + pad) + 1 - w.length` (for the empty input with a wider kernel —
a case torch rejects — this Nat subtraction yields the empty output). -/
def conv1d (xs w : List ℚ) (pad : ℕ) : List ℚ :=
  let p := List.replicate pad 0 ++ xs ++ List.replicate pad 0
  (List.range (p.length + 1 - w.length)).map
    (fun i => (List.zipWith (fun a b => a * b) ((p.drop i).take w.length) w).sum)

/-- The six slider parameters of the "Adjust Control Signals" cell, with the
slider ranges recorded in the notebook's `#@param` annotations. -/
structure Params where
  octave_shift : ℤ
  loudness_scale : ℚ
  loudness_floor : ℚ
  loudness_conf_filter : ℚ
  pitch_conf_filter : ℚ
  pitch_smoothing : ℕ
  loudness_smoothing : ℕ

/-- The checkpoint's normalization statistics `data_mean` / `data_std`
(index 0 = pitch channel, index 1 = loudness channel). -/
structure Stats where
  f0_mean : ℚ
  f0_std : ℚ
  loud_mean : ℚ
  loud_std : ℚ

/-- The whole cell body: from raw `f0`, `confidence`, `loudness` to the pair
`(f0_t, control)` that the synthesis cell consumes, where `control` is the
2×T stack `[f0_norm_t, loud_norm_t]`. -/
def adjustControls (p : Params) (st : Stats) (f0 confidence loudness : List ℚ) :
    List ℚ × List (List ℚ) :=
  let f0f := f0_filtered f0 confidence p.pitch_conf_filter
  let lf := loudness_filtered loudness confidence p.loudness_conf_filter
  let f0s := f0_shifted f0f p.octave_shift
  let lfl := loudness_floored lf p.loudness_floor
  let lsc := loudness_scaled lfl p.loudness_scale
  let loud_norm := normalizeSeq lsc st.loud_mean st.loud_std
  let f0_t := if p.pitch_smoothing = 0 then f0s
    else conv1d f0s (convKernel p.pitch_smoothing) p.pitch_smoothing
  let loud_norm_t := if p.loudness_smoothing = 0 then loud_norm
    else conv1d loud_norm (convKernel p.loudness_smoothing) p.loudness_smoothing
  let f0_norm_t := normalizeSeq f0_t st.f0_mean st.f0_std
  (f0_t, [f0_norm_t, loud_norm_t])

/-- The pitch branch of the cell in isolation: filter, octave-shift, then
optionally smooth.  This is the sequence the cell keeps as `f0_t` (the
unnormalized copy handed to the synthesis call). -/
def pitchChain (p : Params) (f0 confidence : List ℚ) : List ℚ :=
  let f0s := f0_shifted (f0_filtered f0 confidence p.pitch_conf_filter) p.octave_shift
  if p.pitch_smoothing = 0 then f0s
  else conv1d f0s (convKernel p.pitch_smoothing) p.pitch_smoothing

/-- The loudness branch of the cell in isolation: filter, floor, scale,
normalize, then optionally smooth.  This is the sequence the cell keeps as
`loud_norm_t`. -/
def loudnessChain (p : Params) (st : Stats) (confidence loudness : List ℚ) : List ℚ :=
  let loud_norm := normalizeSeq
    (loudness_scaled
      (loudness_floored (loudness_filtered loudness confidence p.loudness_conf_filter)
        p.loudness_floor) p.loudness_scale) st.loud_mean st.loud_std
  if p.loudness_smoothing = 0 then loud_norm
  else conv1d loud_norm (convKernel p.loudness_smoothing) p.loudness_smoothing

/-- The notebook's kernel state relevant to the "Adjust Control Signals"
cell: the raw extracted sequences plus the variables the cell (re)binds. -/
structure CellState where
  f0 : List ℚ
  confidence : List ℚ
  loudness : List ℚ
  f0_t : List ℚ
  control : List (List ℚ)

/-- Running the cell: it reads only the raw sequences (and the parameters
and checkpoint statistics) and rebinds `f0_t` and `control`; the raw
sequences are never assigned in the cell. -/
def runAdjustCell (p : Params) (st : Stats) (s : CellState) : CellState :=
  let out := adjustControls p st s.f0 s.confidence s.loudness
  { s with f0_t := out.1, control := out.2 }

/-- The input sequence with implicit zero padding, read at a (possibly
negative or overlong) integer index: `xs[k]` in range, 0 outside. -/
def getZero (xs : List ℚ) (k : ℤ) : ℚ :=
  if h : 0 ≤ k ∧ k.toNat < xs.length then xs.get ⟨k.toNat, h.2⟩ else 0

end TimbreTransfer

namespace TimbreTransfer

/-- Helper: `getD` at an in-range index is `getElem`. -/
theorem getD_of_lt (xs : List ℚ) (i : ℕ) (d : ℚ) (h : i < xs.length) :
    xs.getD i d = xs[i] := by
  simp [List.getD_eq_getElem?_getD, List.getElem?_eq_getElem h]

/-- Helper: the averaging convolution preserves the sequence length. -/
theorem conv1d_kernel_length (xs : List ℚ) (r : ℕ) :
    (conv1d xs (convKernel r) r).length = xs.length := by
  simp [conv1d, convKernel]
  omega

/-- Helper: the pitch branch has the length of the shorter of `f0` and
`confidence` (they coincide in the notebook). -/
theorem pitchChain_length (p : Params) (f0 confidence : List ℚ) :
    (pitchChain p f0 confidence).length = min f0.length confidence.length := by
  unfold pitchChain
  split <;> simp [conv1d_kernel_length, f0_shifted, f0_filtered]

/-- Helper: the loudness branch has the length of the shorter of `loudness`
and `confidence`. -/
theorem loudnessChain_length (p : Params) (st : Stats) (confidence loudness : List ℚ) :
    (loudnessChain p st confidence loudness).length = min loudness.length confidence.length := by
  unfold loudnessChain
  split <;>
    simp [conv1d_kernel_length, normalizeSeq, loudness_scaled, loudness_floored,
      loudness_filtered]

/-- Helper: an element of the zero-padded input, as `getZero` of the
unpadded sequence at the offset index. -/
theorem padded_getElem (r : ℕ) (xs : List ℚ) (m : ℕ)
    (hm : m < (List.replicate r (0:ℚ) ++ xs ++ List.replicate r 0).length) :
    (List.replicate r (0:ℚ) ++ xs ++ List.replicate r 0)[m] = getZero xs ((m : ℤ) - r) := by
  have hm' : m < r + xs.length + r := by simp at hm; omega
  by_cases h1 : m < r
  · have hfirst : m < (List.replicate r (0:ℚ) ++ xs).length := by simp; omega
    rw [List.getElem_append m hm, dif_pos hfirst]
    rw [List.getElem_append m hfirst, dif_pos (by simpa using h1)]
    rw [List.getElem_replicate]
    rw [getZero, dif_neg (by intro h; omega)]
  · by_cases h2 : m < r + xs.length
    · have hfirst : m < (List.replicate r (0:ℚ) ++ xs).length := by simp; omega
      rw [List.getElem_append m hm, dif_pos hfirst]
      rw [List.getElem_append m hfirst, dif_neg (by simp; omega)]
      have htn : ((m : ℤ) - r).toNat = m - r := by omega
      rw [getZero, dif_pos (by constructor <;> omega)]
      simp only [List.get_eq_getElem, List.length_replicate, htn]
    · have hfirst : ¬ m < (List.replicate r (0:ℚ) ++ xs).length := by simp; omega
      rw [List.getElem_append m hm, dif_neg hfirst]
      rw [List.getElem_replicate]
      rw [getZero, dif_neg (by intro h; simp at h; omega)]

/-- Helper: dot product with a constant kernel is the window sum times the
constant. -/
theorem zipWith_mul_replicate_sum (ws : List ℚ) (n : ℕ) (c : ℚ) :
    (List.zipWith (fun a b => a * b) ws (List.replicate n c)).sum = (ws.take n).sum * c := by
  induction ws generalizing n with
  | nil => simp
  | cons w ws ih =>
    cases n with
    | zero => simp
    | succ k =>
      simp only [List.replicate_succ, List.zipWith_cons_cons, List.sum_cons, List.take_succ_cons,
        ih]
      ring

/-- Helper: each in-range output of the averaging convolution is the sum of
the centered window — zeros outside the sequence included — divided by the
full window size `2r+1`. -/
theorem conv1d_window (r : ℕ) (xs : List ℚ) (i : ℕ) (hi : i < xs.length) :
    (conv1d xs (convKernel r) r).getD i 0 =
      ((List.range (2 * r + 1)).map
        (fun j : ℕ => getZero xs ((i : ℤ) + (j : ℤ) - (r : ℤ)))).sum /
        ((2 * r + 1 : ℕ) : ℚ) := by
  have hlen : i < (conv1d xs (convKernel r) r).length := by
    rw [conv1d_kernel_length]; exact hi
  rw [getD_of_lt _ _ _ hlen]
  unfold conv1d
  simp only [List.getElem_map, List.getElem_range, List.length_replicate, List.length_append,
    List.length_map, List.length_range]
  rw [convKernel, zipWith_mul_replicate_sum, List.take_take]
  simp only [List.length_replicate, Nat.min_self, min_self]
  have hwin : (((List.replicate r (0:ℚ) ++ xs ++ List.replicate r 0).drop i).take (2*r+1))
      = (List.range (2 * r + 1)).map
          (fun j : ℕ => getZero xs ((i : ℤ) + (j : ℤ) - (r : ℤ))) := by
    apply List.ext_getElem
    · simp
      omega
    · intro n h1 h2
      simp only [List.getElem_take, List.getElem_drop, List.getElem_map, List.getElem_range]
      rw [padded_getElem]
      all_goals push_cast
      rfl
  rw [hwin, mul_one_div]

/-- C4: for the input F0 = [440, 440, 0] with confidence = [0.9, 0.05, 0.9]
and pitch confidence threshold 0.1, the filtered F0 sequence is [440, 0, 0]:
the low-confidence middle frame is gated to zero, the others pass through. -/
theorem C4_end_to_end_gating :
    f0_filtered [440, 440, 0] [9/10, 1/20, 9/10] (1/10) = [440, 0, 0] := by
  norm_num [f0_filtered]

/-- C1 counterexample: with floor 1, scale 1 and a single frame of filtered
loudness 1/2 (below the floor), the output after flooring and scaling is the
bare negative floor -1, which is neither 0 nor (original - floor) * scale. -/
theorem C1_counterexample :
    loudness_scaled (loudness_floored [1/2] 1) 1 = [-1] ∧
    ¬((-1 : ℚ) = 0 ∨ (-1 : ℚ) = (1/2 - 1) * 1) := by
  norm_num [loudness_scaled, loudness_floored]

/-- C1 (amended): for any floor f and scale s, the floored-then-scaled
loudness maps each frame x to (x - f) * s when x > f, and to the scaled
negative floor (-f) * s when x ≤ f — gated frames emit the negative floor
(scaled), not zero. -/
theorem C1_floor_gate_offset (lf : List ℚ) (f s : ℚ) :
    loudness_scaled (loudness_floored lf f) s =
      lf.map (fun x => if f < x then (x - f) * s else (-f) * s) := by
  simp only [loudness_scaled, loudness_floored, List.map_map]
  refine List.map_congr_left fun x _ => ?_
  by_cases h : f < x
  · simp only [Function.comp_apply, if_pos h]; ring
  · simp only [Function.comp_apply, if_neg h]; ring

/-- C2: at every in-range frame i, if the confidence is ≤ the pitch
threshold then the filtered F0 is 0, and if the confidence is ≤ the
loudness threshold then the filtered loudness is 0 (both gates read the
same confidence sequence, with independent thresholds). -/
theorem C2_confidence_gating (f0 confidence loudness : List ℚ) (cp cl : ℚ)
    (i : ℕ) (hif : i < f0.length) (hic : i < confidence.length)
    (hil : i < loudness.length) :
    (confidence[i] ≤ cp → (f0_filtered f0 confidence cp).getD i 0 = 0) ∧
    (confidence[i] ≤ cl → (loudness_filtered loudness confidence cl).getD i 0 = 0) := by
  constructor
  · intro hcp
    have hlen : i < (f0_filtered f0 confidence cp).length := by
      simp [f0_filtered, List.length_zipWith]; omega
    rw [getD_of_lt _ _ _ hlen]
    simp only [f0_filtered, List.getElem_zipWith]
    rw [if_neg (not_lt.mpr hcp)]
    ring
  · intro hcl
    have hlen : i < (loudness_filtered loudness confidence cl).length := by
      simp [loudness_filtered, List.length_zipWith]; omega
    rw [getD_of_lt _ _ _ hlen]
    simp only [loudness_filtered, List.getElem_zipWith]
    rw [if_neg (not_lt.mpr hcl)]
    ring

/-- C2 witness: a concrete frame with confidence 0 under thresholds 1/10
has zero filtered F0 and zero filtered loudness. -/
theorem C2_confidence_gating_witness :
    (f0_filtered [440] [0] (1/10)).getD 0 0 = 0 ∧
    (loudness_filtered [5] [0] (1/10)).getD 0 0 = 0 :=
  ⟨(C2_confidence_gating [440] [0] [5] (1/10) (1/10) 0 (by norm_num) (by norm_num)
      (by norm_num)).1 (by norm_num),
   (C2_confidence_gating [440] [0] [5] (1/10) (1/10) 0 (by norm_num) (by norm_num)
      (by norm_num)).2 (by norm_num)⟩

/-- C5: for an integer octave shift k in [-4, 4], the shift step multiplies
every filtered F0 value by 2^k, and with shift 0 it is the identity on the
whole sequence. -/
theorem C5_octave_shift (xs : List ℚ) (k : ℤ) (i : ℕ)
    (hk : -4 ≤ k ∧ k ≤ 4) (hi : i < xs.length) :
    (f0_shifted xs k).getD i 0 = xs.getD i 0 * (2 : ℚ) ^ k ∧
    f0_shifted xs 0 = xs := by
  constructor
  · have hlen : i < (f0_shifted xs k).length := by simpa [f0_shifted] using hi
    rw [getD_of_lt _ _ _ hlen, getD_of_lt _ _ _ hi]
    simp [f0_shifted]
  · simp [f0_shifted]

/-- C5 witness: shifting [3] by one octave gives [6], and shift 0 is the
identity there. -/
theorem C5_octave_shift_witness :
    (f0_shifted [3] 1).getD 0 0 = ([3] : List ℚ).getD 0 0 * (2 : ℚ) ^ (1 : ℤ) ∧
    f0_shifted [3] 0 = [3] :=
  C5_octave_shift [3] 1 0 (by norm_num) (by norm_num)

/-- C7: normalization round-trips exactly over ℚ: for nonzero std s,
denormalize (normalize x m s) m s = x. -/
theorem C7_normalize_roundtrip (x m s : ℚ) (hs : s ≠ 0) :
    denormalize (normalize x m s) m s = x := by
  field_simp [normalize, denormalize]

/-- C7 witness: round-trip at x = 7, mean 3, std 2. -/
theorem C7_normalize_roundtrip_witness :
    denormalize (normalize 7 3 2) 3 2 = 7 :=
  C7_normalize_roundtrip 7 3 2 (by norm_num)

/-- C6: with both smoothing radii 0, both `if` branches are skipped and the
cell output is exactly the unsmoothed pipeline: the sequences pass to the
output (and into normalization) unchanged. -/
theorem C6_smoothing_radius_zero (p : Params) (st : Stats)
    (f0 confidence loudness : List ℚ)
    (hp : p.pitch_smoothing = 0) (hl : p.loudness_smoothing = 0) :
    adjustControls p st f0 confidence loudness =
      (f0_shifted (f0_filtered f0 confidence p.pitch_conf_filter) p.octave_shift,
       [normalizeSeq
          (f0_shifted (f0_filtered f0 confidence p.pitch_conf_filter) p.octave_shift)
          st.f0_mean st.f0_std,
        normalizeSeq
          (loudness_scaled
            (loudness_floored
              (loudness_filtered loudness confidence p.loudness_conf_filter)
              p.loudness_floor) p.loudness_scale)
          st.loud_mean st.loud_std]) := by
  simp [adjustControls, hp, hl]

/-- C6 witness: radius-0 run on a one-frame input, evaluated concretely. -/
theorem C6_smoothing_radius_zero_witness :
    adjustControls ⟨1, 2, 1, 0, 0, 0, 0⟩ ⟨0, 1, 0, 1⟩ [2] [1] [3] = ([4], [[4], [4]]) := by
  have h := C6_smoothing_radius_zero ⟨1, 2, 1, 0, 0, 0, 0⟩ ⟨0, 1, 0, 1⟩ [2] [1] [3] rfl rfl
  rw [h]
  norm_num [f0_shifted, f0_filtered, normalizeSeq, loudness_scaled, loudness_floored,
    loudness_filtered]

/-- C3: with both smoothing radii nonzero, the pitch moving average is
applied to the unnormalized (octave-shifted) F0 and pitch normalization is
computed from the smoothed F0 afterwards, while the loudness moving average
is applied to the already-normalized loudness. -/
theorem C3_smoothing_order (p : Params) (st : Stats)
    (f0 confidence loudness : List ℚ)
    (hp : p.pitch_smoothing ≠ 0) (hl : p.loudness_smoothing ≠ 0) :
    adjustControls p st f0 confidence loudness =
      (conv1d (f0_shifted (f0_filtered f0 confidence p.pitch_conf_filter) p.octave_shift)
         (convKernel p.pitch_smoothing) p.pitch_smoothing,
       [normalizeSeq
          (conv1d
            (f0_shifted (f0_filtered f0 confidence p.pitch_conf_filter) p.octave_shift)
            (convKernel p.pitch_smoothing) p.pitch_smoothing)
          st.f0_mean st.f0_std,
        conv1d
          (normalizeSeq
            (loudness_scaled
              (loudness_floored
                (loudness_filtered loudness confidence p.loudness_conf_filter)
                p.loudness_floor) p.loudness_scale)
            st.loud_mean st.loud_std)
          (convKernel p.loudness_smoothing) p.loudness_smoothing]) := by
  simp [adjustControls, hp, hl]

/-- C3 witness: radius-1 run on a one-frame input, evaluated concretely
(the single frame is averaged with two implicit zero pads: 3 becomes 1). -/
theorem C3_smoothing_order_witness :
    adjustControls ⟨0, 1, 0, 0, 0, 1, 1⟩ ⟨0, 1, 0, 1⟩ [3] [1] [3] = ([1], [[1], [1]]) := by
  have h := C3_smoothing_order ⟨0, 1, 0, 0, 0, 1, 1⟩ ⟨0, 1, 0, 1⟩ [3] [1] [3]
    (by norm_num) (by norm_num)
  rw [h]
  norm_num [f0_shifted, f0_filtered, normalizeSeq, loudness_scaled, loudness_floored,
    loudness_filtered, conv1d, convKernel, List.range_succ, List.replicate_succ,
    List.zipWith_cons_cons, List.sum_cons, List.sum_nil]

/-- C8: with equal-length inputs (length T), the cell output is the retained
unnormalized pitch sequence `f0_t = pitchChain ...` paired with the 2×T
control stack whose first row is the normalization of that very `f0_t` and
whose second row is the (normalized, possibly smoothed) loudness sequence;
both rows have length T. -/
theorem C8_control_shape (p : Params) (st : Stats) (f0 confidence loudness : List ℚ)
    (hc : confidence.length = f0.length) (hl : loudness.length = f0.length) :
    adjustControls p st f0 confidence loudness =
      (pitchChain p f0 confidence,
       [normalizeSeq (pitchChain p f0 confidence) st.f0_mean st.f0_std,
        loudnessChain p st confidence loudness]) ∧
    (adjustControls p st f0 confidence loudness).2.length = 2 ∧
    (normalizeSeq (pitchChain p f0 confidence) st.f0_mean st.f0_std).length = f0.length ∧
    (loudnessChain p st confidence loudness).length = f0.length := by
  refine ⟨?_, ?_, ?_, ?_⟩
  · simp [adjustControls, pitchChain, loudnessChain]
  · simp [adjustControls]
  · simp [normalizeSeq, pitchChain_length, hc]
  · simp [loudnessChain_length, hc, hl]

/-- C8 witness: the shape facts at a concrete one-frame input. -/
theorem C8_control_shape_witness :
    adjustControls ⟨0, 1, 0, 0, 0, 0, 0⟩ ⟨0, 1, 0, 1⟩ [2] [1] [3] =
      (pitchChain ⟨0, 1, 0, 0, 0, 0, 0⟩ [2] [1],
       [normalizeSeq (pitchChain ⟨0, 1, 0, 0, 0, 0, 0⟩ [2] [1]) 0 1,
        loudnessChain ⟨0, 1, 0, 0, 0, 0, 0⟩ ⟨0, 1, 0, 1⟩ [1] [3]]) ∧
    (adjustControls ⟨0, 1, 0, 0, 0, 0, 0⟩ ⟨0, 1, 0, 1⟩ [2] [1] [3]).2.length = 2 ∧
    (normalizeSeq (pitchChain ⟨0, 1, 0, 0, 0, 0, 0⟩ [2] [1]) 0 1).length = 1 ∧
    (loudnessChain ⟨0, 1, 0, 0, 0, 0, 0⟩ ⟨0, 1, 0, 1⟩ [1] [3]).length = 1 :=
  C8_control_shape ⟨0, 1, 0, 0, 0, 0, 0⟩ ⟨0, 1, 0, 1⟩ [2] [1] [3] rfl rfl

/-- C9: the cell leaves the raw f0 / confidence / loudness unchanged, and
two runs from states agreeing on the raw sequences (with the same
parameters and checkpoint statistics) produce identical `f0_t` and
`control` — the pipeline is recomputable from raw inputs alone. -/
theorem C9_input_preservation (p : Params) (st : Stats) (s₁ s₂ : CellState)
    (h0 : s₁.f0 = s₂.f0) (h1 : s₁.confidence = s₂.confidence)
    (h2 : s₁.loudness = s₂.loudness) :
    (runAdjustCell p st s₁).f0 = s₁.f0 ∧
    (runAdjustCell p st s₁).confidence = s₁.confidence ∧
    (runAdjustCell p st s₁).loudness = s₁.loudness ∧
    (runAdjustCell p st s₁).f0_t = (runAdjustCell p st s₂).f0_t ∧
    (runAdjustCell p st s₁).control = (runAdjustCell p st s₂).control := by
  refine ⟨rfl, rfl, rfl, ?_, ?_⟩ <;> simp [runAdjustCell, h0, h1, h2]

/-- C9 witness: two states with the same raw sequences but different stale
derived fields; the cell preserves the raw data and recomputes identical
outputs. -/
theorem C9_input_preservation_witness :
    (runAdjustCell ⟨0, 1, 0, 0, 0, 0, 0⟩ ⟨0, 1, 0, 1⟩ ⟨[2], [1], [3], [], []⟩).f0 = [2] ∧
    (runAdjustCell ⟨0, 1, 0, 0, 0, 0, 0⟩ ⟨0, 1, 0, 1⟩ ⟨[2], [1], [3], [], []⟩).confidence = [1] ∧
    (runAdjustCell ⟨0, 1, 0, 0, 0, 0, 0⟩ ⟨0, 1, 0, 1⟩ ⟨[2], [1], [3], [], []⟩).loudness = [3] ∧
    (runAdjustCell ⟨0, 1, 0, 0, 0, 0, 0⟩ ⟨0, 1, 0, 1⟩ ⟨[2], [1], [3], [], []⟩).f0_t =
      (runAdjustCell ⟨0, 1, 0, 0, 0, 0, 0⟩ ⟨0, 1, 0, 1⟩ ⟨[2], [1], [3], [9], [[9]]⟩).f0_t ∧
    (runAdjustCell ⟨0, 1, 0, 0, 0, 0, 0⟩ ⟨0, 1, 0, 1⟩ ⟨[2], [1], [3], [], []⟩).control =
      (runAdjustCell ⟨0, 1, 0, 0, 0, 0, 0⟩ ⟨0, 1, 0, 1⟩ ⟨[2], [1], [3], [9], [[9]]⟩).control :=
  C9_input_preservation ⟨0, 1, 0, 0, 0, 0, 0⟩ ⟨0, 1, 0, 1⟩
    ⟨[2], [1], [3], [], []⟩ ⟨[2], [1], [3], [9], [[9]]⟩ rfl rfl rfl

/-- C10: for any radius r > 0, the centered moving average preserves the
sequence length, and each in-range output frame is the sum of its centered
window — with implicit zeros where the window reaches past either end —
divided by the full window size 2r+1 (no boundary renormalization). -/
theorem C10_zero_padded_average (r : ℕ) (xs : List ℚ) (i : ℕ)
    (hr : 0 < r) (hi : i < xs.length) :
    (conv1d xs (convKernel r) r).length = xs.length ∧
    (conv1d xs (convKernel r) r).getD i 0 =
      ((List.range (2 * r + 1)).map
        (fun j : ℕ => getZero xs ((i : ℤ) + (j : ℤ) - (r : ℤ)))).sum /
        ((2 * r + 1 : ℕ) : ℚ) :=
  ⟨conv1d_kernel_length xs r, conv1d_window r xs i hi⟩

/-- C10 witness: radius 1 on the one-frame sequence [3] — the single output
frame is (0 + 3 + 0) / 3, averaged with the two implicit zero pads. -/
theorem C10_zero_padded_average_witness :
    (conv1d [3] (convKernel 1) 1).length = List.length [(3:ℚ)] ∧
    (conv1d [3] (convKernel 1) 1).getD 0 0 =
      ((List.range (2 * 1 + 1)).map
        (fun j : ℕ => getZero [3] ((0 : ℤ) + (j : ℤ) - (1 : ℤ)))).sum /
        ((2 * 1 + 1 : ℕ) : ℚ) :=
  C10_zero_padded_average 1 [3] 0 (by norm_num) (by norm_num)

end TimbreTransfer
